import Mathlib

/-!
Shallow embedding of the codex-clean wrapper (src/events.rs, src/output.rs,
src/runner.rs, src/main.rs) and verification of its specification.

JSON lines are embedded post-parse: a value of type `Option Json` models the
result of serde_json parsing a raw line (`none` for a line that is not valid
JSON).  Byte streams are embedded as lists of read results, one entry per
successful `read` call (chunk of bytes) or failing call.
-/

/-- JSON values as produced by serde_json; objects are key-value lists. -/
inductive Json where
  | null
  | bool (b : Bool)
  | num (n : Int)
  | str (s : String)
  | arr (elems : List Json)
  | obj (fields : List (String × Json))

/-- serde_json Value::get: field lookup, defined (Some) only on objects. -/
def Json.get (v : Json) (key : String) : Option Json :=
  match v with
  | .obj fields => fields.lookup key
  | _ => none

/-- serde_json Value::as_str: Some exactly on string values. -/
def Json.as_str (v : Json) : Option String :=
  match v with
  | .str s => some s
  | _ => none

/-- events.rs: events we care about from codex JSON output. -/
inductive Event where
  | ThreadStarted (thread_id : String)
  | AgentMessage (text : Option String)
deriving DecidableEq, Repr

/-- events.rs lines 12-32, extract_event: parse a JSON line permissively,
extracting only events we care about; `parsed` is the serde_json result for
the line (`none` when `serde_json::from_str` fails). -/
def extract_event (parsed : Option Json) : Option Event := do
  let v ← parsed
  let tv ← v.get "type"
  let event_type ← tv.as_str
  match event_type with
  | "thread.started" => do
      let tid ← v.get "thread_id"
      let s ← tid.as_str
      some (Event.ThreadStarted s)
  | "item.completed" => do
      let item ← v.get "item"
      let itv ← item.get "type"
      let its ← itv.as_str
      if its = "agent_message" then
        some (Event.AgentMessage ((item.get "text").bind Json.as_str))
      else
        none
  | _ => none

/-- output.rs: collected results from parsing codex output. -/
structure CodexOutput where
  session_id : Option String := none
  messages : List String := []
  multiple_threads_seen : Bool := false
deriving DecidableEq, Repr

/-- output.rs CodexOutput::new -/
def CodexOutput.new : CodexOutput := {}

/-- output.rs: rendered stdout/stderr strings. -/
structure RenderedOutput where
  stdout : String
  stderr : String
deriving DecidableEq, Repr

/-- output.rs lines 24-30, CodexOutput::add_thread_id: uses first seen,
warns if multiple. -/
def add_thread_id (o : CodexOutput) (thread_id : String) : CodexOutput :=
  if o.session_id.isNone then
    { o with session_id := some thread_id }
  else if o.session_id ≠ some thread_id then
    { o with multiple_threads_seen := true }
  else
    o

/-- output.rs lines 33-37, CodexOutput::add_message: add an agent message
text, dropping empty strings. -/
def add_message (o : CodexOutput) (text : String) : CodexOutput :=
  if !text.isEmpty then
    { o with messages := o.messages ++ [text] }
  else
    o

/-- output.rs lines 40-42, CodexOutput::aggregated_message -/
def aggregated_message (o : CodexOutput) : String :=
  String.intercalate "\n" o.messages

/-- output.rs lines 45-73, CodexOutput::render: compose stdout/stderr
strings for printing; writeln! appends its text plus a newline. -/
def render (o : CodexOutput) : RenderedOutput :=
  let stdout := ""
  let stderr := ""
  let stderr := if o.multiple_threads_seen then
    stderr ++ "Warning: Multiple thread IDs seen, using first\n" else stderr
  let pair := match o.session_id with
    | some id => (stdout ++ "Session: " ++ id ++ "\n", stderr)
    | none => (stdout, stderr ++ "Warning: No session ID received\n")
  let stdout := pair.1
  let stderr := pair.2
  let message := aggregated_message o
  if message.isEmpty then
    if o.session_id.isSome then
      { stdout := stdout, stderr := stderr ++ "Note: No response received\n" }
    else
      { stdout := stdout, stderr := stderr }
  else
    { stdout := stdout ++ "\n" ++ message ++ "\n", stderr := stderr }

/-- One result of `reader.lines()` in runner.rs: a line (already passed to
serde_json, hence `Option Json`) or an I/O error, whose payload we model as
a natural number. -/
inductive LineRead where
  | ok (parsed : Option Json)
  | err (e : Nat)

/-- runner.rs lines 126-141: the loop body of parse_codex_stream, folding
extracted events into the aggregate and propagating the first read error. -/
def parse_codex_stream_loop (lines : List LineRead) (o : CodexOutput) :
    Except Nat CodexOutput :=
  match lines with
  | [] => Except.ok o
  | LineRead.err e :: _ => Except.error e
  | LineRead.ok parsed :: rest =>
    match extract_event parsed with
    | some (Event.ThreadStarted thread_id) =>
        parse_codex_stream_loop rest (add_thread_id o thread_id)
    | some (Event.AgentMessage (some t)) =>
        parse_codex_stream_loop rest (add_message o t)
    | some (Event.AgentMessage none) => parse_codex_stream_loop rest o
    | none => parse_codex_stream_loop rest o

/-- runner.rs lines 123-144, parse_codex_stream -/
def parse_codex_stream (lines : List LineRead) : Except Nat CodexOutput :=
  parse_codex_stream_loop lines CodexOutput.new

/-- runner.rs line 10 -/
def STDERR_CAP_BYTES : Nat := 10 * 1024 * 1024

/-- One result of `reader.read(&mut chunk)` in capture_stderr: a chunk of
bytes (`Ok(n)` with the bytes read; end-of-stream is the end of the list)
or an I/O error, whose payload we model as a natural number. -/
inductive ReadResult where
  | ok (chunk : List Nat)
  | err (e : Nat)

/-- runner.rs lines 152-170: the read loop of capture_stderr, with the cap
threaded as a parameter; subtraction on Nat is saturating, matching
usize::saturating_sub. -/
def capture_stderr_loop (cap : Nat) (reads : List ReadResult)
    (buffer : List Nat) (truncated : Bool) : List Nat × Bool × Option Nat :=
  match reads with
  | [] => (buffer, truncated, none)
  | ReadResult.err e :: _ => (buffer, truncated, some e)
  | ReadResult.ok chunk :: rest =>
    let n := chunk.length
    let remaining := cap - buffer.length
    if remaining = 0 then
      capture_stderr_loop cap rest buffer true
    else
      let to_copy := min remaining n
      let buffer' := buffer ++ chunk.take to_copy
      let truncated' := if to_copy < n then true else truncated
      capture_stderr_loop cap rest buffer' truncated'

/-- capture_stderr with an explicit cap, starting from an empty buffer. -/
def capture_stderr_with_cap (cap : Nat) (reads : List ReadResult) :
    List Nat × Bool × Option Nat :=
  capture_stderr_loop cap reads [] false

/-- runner.rs lines 146-173, capture_stderr -/
def capture_stderr (reads : List ReadResult) : List Nat × Bool × Option Nat :=
  capture_stderr_with_cap STDERR_CAP_BYTES reads

/-- runner.rs line 87: the exit code run_codex returns,
`status.code().unwrap_or(1)`. -/
def run_codex_exit_code (status_code : Option Int) : Int :=
  status_code.getD 1

/-- main.rs: std::process::ExitCode::FAILURE, the generic failure status. -/
def ExitCode_FAILURE : Nat := 1

/-- main.rs lines 129-135, exit_code_from_child: clamp the child's raw code
into a process exit status (a u8, modeled as Nat). -/
def exit_code_from_child (code : Int) : Nat :=
  if code < 0 ∨ code > 255 then ExitCode_FAILURE
  else code.toNat

/-- The operations of run_codex's calling flow, in runner.rs. -/
inductive RunStep where
  | spawnChild
  | writeStdinPrompt
  | spawnStderrDrain
  | drainStdout
  | waitChild
  | joinStderrDrain
  | printOutput
deriving DecidableEq, BEq, Repr

/-- runner.rs lines 61-120: the program order of the calling flow of
run_codex (spawn at line 61, stdin delivery 64-70, stderr drain thread
spawned at 74, stdout drained at 77-80, child.wait() at 83, the stderr
thread joined at 84-85, aggregate printed at 118). -/
def run_codex_flow : List RunStep :=
  [RunStep.spawnChild, RunStep.writeStdinPrompt, RunStep.spawnStderrDrain,
   RunStep.drainStdout, RunStep.waitChild, RunStep.joinStderrDrain,
   RunStep.printOutput]

/-- Scenario line 1 of the spec, parsed. -/
def scenario_line1 : Json :=
  Json.obj [("type", Json.str "thread.started"), ("thread_id", Json.str "s1")]

/-- Scenario line 2 of the spec, parsed. -/
def scenario_line2 : Json :=
  Json.obj [("type", Json.str "item.completed"),
    ("item", Json.obj [("type", Json.str "agent_message"),
      ("text", Json.str "hi")])]

/-- An item.completed line carrying an agent_message with no text field. -/
def agent_message_no_text_line : Json :=
  Json.obj [("type", Json.str "item.completed"),
    ("item", Json.obj [("type", Json.str "agent_message")])]

/-! Helper lemmas. -/

/-- Folding add_thread_id over further ids keeps the already-set session id
and raises multiple_threads_seen exactly when a different id appears. -/
theorem foldl_add_thread_id (rest : List String) (o : CodexOutput)
    (first : String) (h : o.session_id = some first) :
    (rest.foldl add_thread_id o).session_id = some first ∧
    (rest.foldl add_thread_id o).multiple_threads_seen =
      (o.multiple_threads_seen || rest.any (fun id => id != first)) := by
  induction rest generalizing o with
  | nil => simp [h]
  | cons x xs ih =>
    simp only [List.foldl_cons, List.any_cons]
    by_cases hx : x = first
    · subst hx
      have hstep : add_thread_id o x = o := by
        simp [add_thread_id, h]
      rw [hstep]
      rcases ih o h with ⟨h1, h2⟩
      refine ⟨h1, ?_⟩
      simp [h2]
    · have hfx : first ≠ x := fun hc => hx hc.symm
      have hstep : add_thread_id o x = { o with multiple_threads_seen := true } := by
        simp [add_thread_id, h, hfx]
      rw [hstep]
      rcases ih { o with multiple_threads_seen := true } (by simpa using h) with ⟨h1, h2⟩
      refine ⟨h1, ?_⟩
      simp [h2, bne_iff_ne, hx]

/-- Folding add_message appends exactly the non-empty texts. -/
theorem foldl_add_message (texts : List String) (o : CodexOutput) :
    (texts.foldl add_message o).messages =
      o.messages ++ texts.filter (fun t => !t.isEmpty) := by
  induction texts generalizing o with
  | nil => simp
  | cons x xs ih =>
    simp only [List.foldl_cons, List.filter_cons]
    by_cases hx : x.isEmpty
    · have hstep : add_message o x = o := by
        simp [add_message, hx]
      rw [hstep, ih]
      simp [hx]
    · have hstep : add_message o x =
          { o with messages := o.messages ++ [x] } := by
        simp [add_message, hx]
      rw [hstep, ih]
      simp [hx]

/-! Claim theorems. -/

/-- C1 counterexample: in run_codex the stderr drain thread is joined only
after child.wait(), so the join does not happen before waiting for the
child to exit. -/
theorem run_codex_join_not_before_wait :
    ¬ (run_codex_flow.indexOf RunStep.joinStderrDrain <
       run_codex_flow.indexOf RunStep.waitChild) := by decide

/-- C1 (amended): in run_codex the calling flow drains stdout to
end-of-stream, then waits for the child to exit, and only after that wait
joins the background stderr drain to obtain the captured bytes, truncation
flag, and optional capture error, before printing the aggregate. -/
theorem run_codex_flow_order :
    run_codex_flow.indexOf RunStep.drainStdout <
      run_codex_flow.indexOf RunStep.waitChild ∧
    run_codex_flow.indexOf RunStep.waitChild <
      run_codex_flow.indexOf RunStep.joinStderrDrain ∧
    run_codex_flow.indexOf RunStep.joinStderrDrain <
      run_codex_flow.indexOf RunStep.printOutput := by decide

/-- C5: for every non-empty sequence of add_thread_id calls on a fresh
aggregate, the final session_id is the first id, and
multiple_threads_seen is true iff some later call supplied a different
id. -/
theorem add_thread_id_first_wins (first : String) (rest : List String) :
    ((first :: rest).foldl add_thread_id CodexOutput.new).session_id =
      some first ∧
    (((first :: rest).foldl add_thread_id
        CodexOutput.new).multiple_threads_seen = true ↔
      ∃ id ∈ rest, id ≠ first) := by
  have h1 : add_thread_id CodexOutput.new first =
      { session_id := some first, messages := [],
        multiple_threads_seen := false } := rfl
  rw [List.foldl_cons, h1]
  rcases foldl_add_thread_id rest
      { session_id := some first, messages := [],
        multiple_threads_seen := false } first rfl with ⟨hs, hm⟩
  refine ⟨hs, ?_⟩
  rw [hm]
  simp [List.any_eq_true, bne_iff_ne]

/-- C6: for every sequence of add_message calls on a fresh aggregate, the
final message sequence is the subsequence of non-empty arguments in call
order, and no empty string ever appears in it. -/
theorem add_message_keeps_nonempty (texts : List String) :
    (texts.foldl add_message CodexOutput.new).messages =
      texts.filter (fun t => !t.isEmpty) ∧
    ∀ m ∈ (texts.foldl add_message CodexOutput.new).messages, m ≠ "" := by
  have h := foldl_add_message texts CodexOutput.new
  have hnil : (CodexOutput.new).messages = [] := rfl
  rw [hnil, List.nil_append] at h
  refine ⟨h, ?_⟩
  intro m hm
  rw [h, List.mem_filter] at hm
  intro hcontra
  subst hcontra
  exact absurd hm.2 (by decide)

/-- C8: run_codex returns the child's raw exit code, mapping only an
absent exit code to the generic failure code 1; exit_code_from_child maps
negative or greater-than-255 codes to the failure status and in-range
codes to themselves. -/
theorem exit_code_contract :
    (∀ c : Int, run_codex_exit_code (some c) = c) ∧
    run_codex_exit_code none = 1 ∧
    (∀ c : Int, c < 0 ∨ 255 < c →
      exit_code_from_child c = ExitCode_FAILURE) ∧
    (∀ c : Int, 0 ≤ c → c ≤ 255 →
      (exit_code_from_child c : Int) = c) := by
  refine ⟨fun c => rfl, rfl, fun c h => ?_, fun c h1 h2 => ?_⟩
  · simp only [exit_code_from_child]
    rw [if_pos]
    rcases h with h | h
    · exact Or.inl h
    · exact Or.inr h
  · simp only [exit_code_from_child]
    rw [if_neg]
    · exact Int.toNat_of_nonneg h1
    · rintro (h | h) <;> omega

/-- C8 witness: concrete exit-code mappings. -/
theorem exit_code_contract_witness :
    exit_code_from_child (-1) = ExitCode_FAILURE ∧
    exit_code_from_child 256 = ExitCode_FAILURE ∧
    (exit_code_from_child 42 : Int) = 42 :=
  ⟨exit_code_contract.2.2.1 (-1) (Or.inl (by decide)),
   exit_code_contract.2.2.1 256 (Or.inr (by decide)),
   exit_code_contract.2.2.2 42 (by decide) (by decide)⟩

/-- C4: for every line whose type field is "thread.started", extract_event
returns ThreadStarted with the string value of thread_id, and no event
when thread_id is missing or not a string. -/
theorem extract_event_thread_started :
    ∀ v : Json, v.get "type" = some (Json.str "thread.started") →
      (∀ id, (v.get "thread_id").bind Json.as_str = some id →
        extract_event (some v) = some (Event.ThreadStarted id)) ∧
      ((v.get "thread_id").bind Json.as_str = none →
        extract_event (some v) = none) := by
  intro v h
  have hunfold : extract_event (some v) =
      (v.get "thread_id").bind (fun tid => tid.as_str.bind
        (fun s => some (Event.ThreadStarted s))) := by
    simp [extract_event, h, Json.as_str]
  constructor
  · intro id hid
    rw [hunfold]
    rcases hoption : v.get "thread_id" with _ | tid
    · rw [hoption] at hid
      simp at hid
    · rw [hoption] at hid
      simp only [Option.some_bind] at hid ⊢
      simp [hid]
  · intro hnone
    rw [hunfold]
    rcases hoption : v.get "thread_id" with _ | tid
    · rfl
    · rw [hoption] at hnone
      simp only [Option.some_bind] at hnone ⊢
      simp [hnone]

/-- C4 witness: the scenario thread.started line extracts to
ThreadStarted "s1". -/
theorem extract_event_thread_started_witness :
    extract_event (some scenario_line1) = some (Event.ThreadStarted "s1") :=
  (extract_event_thread_started scenario_line1 rfl).1 "s1" rfl

/-- C3: for every line whose type field is "item.completed", extract_event
returns an AgentMessage iff a nested item object is present whose type
field is the string "agent_message"; the text is the string value of
item.text, else absent; and a line that fails JSON parsing yields no
event. -/
theorem extract_event_item_completed :
    (∀ v : Json, v.get "type" = some (Json.str "item.completed") →
      (((extract_event (some v)).isSome ↔
        ∃ item, v.get "item" = some item ∧
          (item.get "type").bind Json.as_str = some "agent_message") ∧
       ∀ item, v.get "item" = some item →
         (item.get "type").bind Json.as_str = some "agent_message" →
         extract_event (some v) =
           some (Event.AgentMessage ((item.get "text").bind Json.as_str)))) ∧
    extract_event none = none := by
  constructor
  · intro v h
    have hunfold : extract_event (some v) =
        (v.get "item").bind (fun item =>
          (item.get "type").bind (fun itv => itv.as_str.bind (fun its =>
            if its = "agent_message" then
              some (Event.AgentMessage ((item.get "text").bind Json.as_str))
            else none))) := by
      simp [extract_event, h, Json.as_str]
    rw [hunfold]
    constructor
    · constructor
      · intro hsome
        rcases hitem : v.get "item" with _ | item
        · rw [hitem] at hsome
          simp at hsome
        · refine ⟨item, rfl, ?_⟩
          rw [hitem] at hsome
          simp only [Option.some_bind] at hsome
          rcases hitv : item.get "type" with _ | itv
          · rw [hitv] at hsome
            simp at hsome
          · rw [hitv] at hsome
            simp only [Option.some_bind] at hsome
            cases itv <;> simp [Json.as_str] at hsome ⊢
            case str s => exact hsome
      · rintro ⟨item, hitem, hag⟩
        rw [hitem]
        simp only [Option.some_bind]
        rcases hitv : item.get "type" with _ | itv
        · rw [hitv] at hag
          simp at hag
        · rw [hitv] at hag
          simp only [Option.some_bind] at hag
          cases itv <;> simp [Json.as_str] at hag
          case str s =>
            subst hag
            simp [Json.as_str]
    · intro item hitem hag
      rw [hitem]
      simp only [Option.some_bind]
      rcases hitv : item.get "type" with _ | itv
      · rw [hitv] at hag
        simp at hag
      · rw [hitv] at hag
        simp only [Option.some_bind] at hag
        cases itv <;> simp [Json.as_str] at hag
        case str s =>
          subst hag
          simp [Json.as_str]
  · rfl

/-- C3 witness: the scenario item.completed line extracts to an
AgentMessage with text "hi". -/
theorem extract_event_item_completed_witness :
    extract_event (some scenario_line2) =
      some (Event.AgentMessage (some "hi")) :=
  (extract_event_item_completed.1 scenario_line2 rfl).2
    (Json.obj [("type", Json.str "agent_message"), ("text", Json.str "hi")])
    rfl rfl

/-- C7: render emits "Session: <id>" plus newline when a session id is
present, then a blank line and the joined messages when they are
non-empty; when the joined messages are empty but a session id is
present, the no-response note goes to the diagnostic output; the
two-line scenario renders primary "Session: s1\n\nhi\n" with empty
diagnostic. -/
theorem render_composition :
    (∀ (o : CodexOutput) (id : String), o.session_id = some id →
      ((aggregated_message o).isEmpty = false →
        (render o).stdout =
          "Session: " ++ id ++ "\n" ++ "\n" ++ aggregated_message o ++ "\n" ∧
        (render o).stderr =
          (if o.multiple_threads_seen then
            "Warning: Multiple thread IDs seen, using first\n" else "")) ∧
      ((aggregated_message o).isEmpty = true →
        (render o).stdout = "Session: " ++ id ++ "\n" ∧
        (render o).stderr =
          (if o.multiple_threads_seen then
            "Warning: Multiple thread IDs seen, using first\n" else "") ++
          "Note: No response received\n")) ∧
    (parse_codex_stream [LineRead.ok (some scenario_line1),
      LineRead.ok (some scenario_line2)]).map render =
      Except.ok { stdout := "Session: s1\n\nhi\n", stderr := "" } := by
  constructor
  · intro o id h
    constructor
    · intro hmsg
      constructor
      · simp [render, h, aggregated_message] at hmsg ⊢
        simp [hmsg]
      · simp [render, h, aggregated_message] at hmsg ⊢
        simp [hmsg]
    · intro hmsg
      constructor
      · simp [render, h, aggregated_message] at hmsg ⊢
        simp [hmsg]
      · simp [render, h, aggregated_message] at hmsg ⊢
        simp [hmsg]
  · rfl

/-- C7 witness: concrete renders for a non-empty and an empty message
sequence. -/
theorem render_composition_witness :
    (render
        { session_id := some "x", messages := ["m"],
          multiple_threads_seen := false }).stdout = "Session: x\n\nm\n" ∧
    (render
        { session_id := some "y", messages := [],
          multiple_threads_seen := false }).stderr =
      "Note: No response received\n" := by
  constructor
  · have h := (render_composition.1
      { session_id := some "x", messages := ["m"],
        multiple_threads_seen := false } "x" rfl).1 rfl
    rw [h.1]
    rfl
  · have h := (render_composition.1
      { session_id := some "y", messages := [],
        multiple_threads_seen := false } "y" rfl).2 rfl
    rw [h.2]
    rfl

/-- Any error-free run of the parse loop ending in a failing line read
propagates that error regardless of the aggregate state. -/
theorem parse_codex_stream_loop_err (e : Nat) (tail : List LineRead) :
    ∀ pre : List LineRead, (∀ x ∈ pre, ∃ j, x = LineRead.ok j) →
    ∀ o : CodexOutput,
      parse_codex_stream_loop (pre ++ LineRead.err e :: tail) o =
        Except.error e := by
  intro pre
  induction pre with
  | nil => intro _ o; rfl
  | cons x xs ih =>
    intro hx o
    rcases hx x (List.mem_cons_self x xs) with ⟨j, rfl⟩
    have hxs : ∀ y ∈ xs, ∃ j, y = LineRead.ok j :=
      fun y hy => hx y (List.mem_cons_of_mem _ hy)
    rw [List.cons_append]
    rcases hev : extract_event j with _ | ev
    · simp [parse_codex_stream_loop, hev]
      exact ih hxs _
    · cases ev with
      | ThreadStarted tid =>
        simp [parse_codex_stream_loop, hev]
        exact ih hxs _
      | AgentMessage t =>
        cases t with
        | none =>
          simp [parse_codex_stream_loop, hev]
          exact ih hxs _
        | some s =>
          simp [parse_codex_stream_loop, hev]
          exact ih hxs _

/-- C10: if any line read fails, parse_codex_stream returns that error
and discards events from earlier lines; a recognized AgentMessage with
absent text leaves the aggregate unchanged. -/
theorem parse_codex_stream_error_discards :
    (∀ (pre : List LineRead) (e : Nat) (tail : List LineRead),
      (∀ x ∈ pre, ∃ j, x = LineRead.ok j) →
      parse_codex_stream (pre ++ LineRead.err e :: tail) =
        Except.error e) ∧
    (∀ (parsed : Option Json) (rest : List LineRead) (o : CodexOutput),
      extract_event parsed = some (Event.AgentMessage none) →
      parse_codex_stream_loop (LineRead.ok parsed :: rest) o =
        parse_codex_stream_loop rest o) := by
  constructor
  · intro pre e tail hpre
    exact parse_codex_stream_loop_err e tail pre hpre CodexOutput.new
  · intro parsed rest o hev
    simp [parse_codex_stream_loop, hev]

/-- C10 witness: a stream with a good line then a failing read returns the
error; a no-text agent message line is a no-op on the aggregate. -/
theorem parse_codex_stream_error_discards_witness :
    parse_codex_stream [LineRead.ok (some scenario_line1),
      LineRead.err 7] = Except.error 7 ∧
    parse_codex_stream_loop [LineRead.ok (some agent_message_no_text_line)]
        CodexOutput.new =
      parse_codex_stream_loop [] CodexOutput.new :=
  ⟨parse_codex_stream_error_discards.1 [LineRead.ok (some scenario_line1)]
      7 []
      (by
        intro x hx
        rw [List.mem_singleton] at hx
        exact ⟨some scenario_line1, hx⟩),
   parse_codex_stream_error_discards.2 (some agent_message_no_text_line)
      [] CodexOutput.new rfl⟩

/-- One step of the capture loop on a successful read. -/
theorem capture_stderr_loop_cons_ok (cap : Nat) (c : List Nat)
    (rest : List ReadResult) (buffer : List Nat) (truncated : Bool) :
    capture_stderr_loop cap (ReadResult.ok c :: rest) buffer truncated =
      if cap - buffer.length = 0 then
        capture_stderr_loop cap rest buffer true
      else
        capture_stderr_loop cap rest
          (buffer ++ c.take (min (cap - buffer.length) c.length))
          (if min (cap - buffer.length) c.length < c.length then true
           else truncated) := rfl

/-- On an error-free read sequence of non-empty chunks the capture loop
returns the first remaining-capacity bytes of the stream, flags
truncation exactly when the stream exceeds that capacity, and reports no
error. -/
theorem capture_stderr_loop_ok (cap : Nat) :
    ∀ (chunks : List (List Nat)) (buffer : List Nat) (truncated : Bool),
      buffer.length ≤ cap → (∀ c ∈ chunks, c ≠ []) →
      capture_stderr_loop cap (chunks.map ReadResult.ok) buffer truncated =
        (buffer ++ chunks.flatten.take (cap - buffer.length),
         truncated || decide (cap - buffer.length < chunks.flatten.length),
         none) := by
  intro chunks
  induction chunks with
  | nil =>
    intro buffer truncated _ _
    simp [capture_stderr_loop]
  | cons c cs ih =>
    intro buffer truncated hb hne
    have hc : 0 < c.length :=
      List.length_pos.mpr (hne c (List.mem_cons_self c cs))
    have hcs : ∀ x ∈ cs, x ≠ [] :=
      fun x hx => hne x (List.mem_cons_of_mem _ hx)
    rw [List.map_cons, capture_stderr_loop_cons_ok]
    by_cases hrem : cap - buffer.length = 0
    · rw [if_pos hrem, ih buffer true hb hcs]
      have h0 : decide (cap - buffer.length <
          (c :: cs).flatten.length) = true := by
        rw [List.flatten_cons, List.length_append]
        simp only [decide_eq_true_eq]
        omega
      simp only [Prod.mk.injEq]
      refine ⟨?_, ?_, trivial⟩
      · rw [hrem, List.take_zero, List.append_nil, List.take_zero,
          List.append_nil]
      · rw [h0, Bool.or_true, hrem]
        simp
    · rw [if_neg hrem]
      have hbl : (buffer ++
          c.take (min (cap - buffer.length) c.length)).length ≤ cap := by
        rw [List.length_append, List.length_take]
        omega
      rw [ih _ _ hbl hcs]
      have hlen : (buffer ++
          c.take (min (cap - buffer.length) c.length)).length =
          buffer.length + min (cap - buffer.length) c.length := by
        rw [List.length_append, List.length_take]
        omega
      simp only [Prod.mk.injEq]
      refine ⟨?_, ?_, trivial⟩
      · rw [List.append_assoc, hlen]
        congr 1
        rw [List.flatten_cons, List.take_append_eq_append_take]
        congr 1
        · exact List.take_eq_take.mpr (by omega)
        · congr 1
          omega
      · rw [hlen]
        by_cases htc : min (cap - buffer.length) c.length < c.length
        · rw [if_pos htc]
          have hT : decide (cap - buffer.length <
              (c :: cs).flatten.length) = true := by
            rw [List.flatten_cons, List.length_append]
            simp only [decide_eq_true_eq]
            omega
          rw [hT, Bool.true_or, Bool.or_true]
        · rw [if_neg htc]
          congr 1
          rw [decide_eq_decide, List.flatten_cons, List.length_append]
          omega

/-- C2: feeding N bytes (in non-empty chunks) to the stderr drain with cap
C captures the input exactly with no truncation when N is at most C, and
captures exactly the first C bytes with the truncation flag set when N
exceeds C, in both cases draining the whole stream without error. -/
theorem capture_stderr_bounded (cap : Nat) (chunks : List (List Nat))
    (hne : ∀ c ∈ chunks, c ≠ []) :
    (chunks.flatten.length ≤ cap →
      capture_stderr_with_cap cap (chunks.map ReadResult.ok) =
        (chunks.flatten, false, none)) ∧
    (cap < chunks.flatten.length →
      capture_stderr_with_cap cap (chunks.map ReadResult.ok) =
        (chunks.flatten.take cap, true, none) ∧
      (capture_stderr_with_cap cap
        (chunks.map ReadResult.ok)).1.length = cap) := by
  have h := capture_stderr_loop_ok cap chunks [] false (by simp) hne
  rw [capture_stderr_with_cap, h]
  simp only [List.nil_append, List.length_nil, Nat.sub_zero, Bool.false_or]
  constructor
  · intro hle
    rw [List.take_of_length_le hle]
    have : decide (cap < chunks.flatten.length) = false := by
      simp only [decide_eq_false_iff_not]
      omega
    rw [this]
  · intro hlt
    have hdec : decide (cap < chunks.flatten.length) = true := by
      simp only [decide_eq_true_eq]
      exact hlt
    rw [hdec]
    refine ⟨rfl, ?_⟩
    rw [List.length_take]
    omega

/-- C2 witness: concrete drains below and above the cap. -/
theorem capture_stderr_bounded_witness :
    capture_stderr_with_cap 5 ([[1, 2]].map ReadResult.ok) =
      ([1, 2], false, none) ∧
    capture_stderr_with_cap 3 ([[1, 2], [3, 4]].map ReadResult.ok) =
      ([1, 2, 3], true, none) ∧
    (capture_stderr_with_cap 3
      ([[1, 2], [3, 4]].map ReadResult.ok)).1.length = 3 := by
  refine ⟨?_, ?_, ?_⟩
  · exact (capture_stderr_bounded 5 [[1, 2]] (by decide)).1 (by decide)
  · exact ((capture_stderr_bounded 3 [[1, 2], [3, 4]] (by decide)).2
      (by decide)).1
  · exact ((capture_stderr_bounded 3 [[1, 2], [3, 4]] (by decide)).2
      (by decide)).2

/-- The capture loop never grows the buffer past the cap, and a set
truncation flag means the buffer is exactly at the cap. -/
theorem capture_stderr_loop_le (cap : Nat) :
    ∀ (reads : List ReadResult) (buffer : List Nat) (truncated : Bool),
      buffer.length ≤ cap → (truncated = true → buffer.length = cap) →
      (capture_stderr_loop cap reads buffer truncated).1.length ≤ cap ∧
      ((capture_stderr_loop cap reads buffer truncated).2.1 = true →
        (capture_stderr_loop cap reads buffer truncated).1.length = cap) := by
  intro reads
  induction reads with
  | nil =>
    intro buffer truncated hb ht
    exact ⟨hb, ht⟩
  | cons r rest ih =>
    intro buffer truncated hb ht
    cases r with
    | err e => exact ⟨hb, ht⟩
    | ok c =>
      rw [capture_stderr_loop_cons_ok]
      by_cases hrem : cap - buffer.length = 0
      · rw [if_pos hrem]
        exact ih buffer true hb (fun _ => by omega)
      · rw [if_neg hrem]
        apply ih
        · rw [List.length_append, List.length_take]
          omega
        · intro htr
          rw [List.length_append, List.length_take]
          by_cases htc : min (cap - buffer.length) c.length < c.length
          · omega
          · rw [if_neg htc] at htr
            have hcap := ht htr
            omega

/-- C9: for every read sequence, the captured buffer never exceeds the
cap, and whenever the truncation flag is set the buffer length equals the
cap exactly, for a general cap and for the fixed 10 MiB cap of
capture_stderr. -/
theorem capture_stderr_cap_invariant (cap : Nat) (reads : List ReadResult) :
    ((capture_stderr_with_cap cap reads).1.length ≤ cap ∧
     ((capture_stderr_with_cap cap reads).2.1 = true →
       (capture_stderr_with_cap cap reads).1.length = cap)) ∧
    ((capture_stderr reads).1.length ≤ STDERR_CAP_BYTES ∧
     ((capture_stderr reads).2.1 = true →
       (capture_stderr reads).1.length = STDERR_CAP_BYTES)) :=
  ⟨capture_stderr_loop_le cap reads [] false (by simp) (by simp),
   capture_stderr_loop_le STDERR_CAP_BYTES reads [] false (by simp) (by simp)⟩

/-- C9 witness: a run in which a read error terminates the drain after
truncation began still has a buffer of exactly the cap's length. -/
theorem capture_stderr_cap_invariant_witness :
    (capture_stderr_with_cap 2
      [ReadResult.ok [1, 2, 3], ReadResult.err 5]).1.length ≤ 2 ∧
    (capture_stderr_with_cap 2
      [ReadResult.ok [1, 2, 3], ReadResult.err 5]).1.length = 2 :=
  ⟨(capture_stderr_cap_invariant 2
      [ReadResult.ok [1, 2, 3], ReadResult.err 5]).1.1,
   (capture_stderr_cap_invariant 2
      [ReadResult.ok [1, 2, 3], ReadResult.err 5]).1.2 rfl⟩
